import Mathlib

/-!
Verification of the yt2radarr browser client (job-lifecycle tracking and
live-log console subsystem). The definitions below are a shallow embedding
of the final iteration of the client script (the file defining
`CANCELLABLE_STATUSES`, `MAX_DOWNLOAD_ENTRIES = 8`, `POLL_INTERVAL = 1000`)
plus, where noted, the earlier `static/script.js` iteration. JavaScript
`Date` values are modelled as natural-number timestamps, strings as Lean
strings (the log labels and snippets involved are ASCII), and thrown
exceptions as an explicit error component threaded through each operation:
a JavaScript statement sequence that throws keeps all mutations performed
before the throw, so stateful operations return the mutated state together
with an optional error.
-/

namespace YtToRadarr

/-! ### JavaScript string primitives -/

/-- Characters matched by JavaScript `\s` and trimmed by
`String.prototype.trim` (ASCII range). -/
def isJsSpace (c : Char) : Bool :=
  c = ' ' || c = '\t' || c = '\n' || c = '\r' || c = '\x0b' || c = '\x0c'

/-- `String.prototype.trim` on the character list. -/
def trimChars (l : List Char) : List Char :=
  ((l.dropWhile isJsSpace).reverse.dropWhile isJsSpace).reverse

/-- `String.prototype.trim`. -/
def jsTrim (s : String) : String := ⟨trimChars s.data⟩

/-- `String.prototype.toLowerCase` (ASCII). -/
def jsLower (s : String) : String := ⟨s.data.map Char.toLower⟩

/-- `String.prototype.startsWith`. -/
def jsStarts (s pat : String) : Bool := pat.data.isPrefixOf s.data

/-- Whether `sub` occurs as a contiguous run inside `hay`. -/
def charsContain (hay sub : List Char) : Bool :=
  sub.isPrefixOf hay ||
    match hay with
    | [] => false
    | _ :: t => charsContain t sub

/-- `String.prototype.includes`. -/
def jsIncludes (hay sub : String) : Bool := charsContain hay.data sub.data

/-- Whether the list holds a character that JavaScript `.` refuses to match
(the line terminators `\n` and `\r`; the non-ASCII terminators do not occur
in the inputs considered). -/
def hasLineTerm (l : List Char) : Bool :=
  l.any (fun c => c = '\n' || c = '\r')

/-! ### Log classifier and console renderer

Source: `shouldDisplayLogLine`, `interpretLogLine`, `appendConsoleLine`,
`renderLogLines` and the two snippet tables of the final client script.
The console is modelled as the list of rendered lines, most recent first,
because `appendConsoleLine` inserts before the first child. -/

/-- Substrings that make an otherwise plain line important enough to show
with debug mode off. -/
def IMPORTANT_LINE_SNIPPETS : List String :=
  ["success! video saved",
   "renaming downloaded file",
   "treating video as main video file",
   "storing video in subfolder",
   "created movie folder",
   "fetching radarr details",
   "resolved youtube format"]

/-- Substrings that silence a `WARNING:` line with debug mode off. -/
def NOISY_WARNING_SNIPPETS : List String :=
  ["[youtube]",
   "sabr streaming",
   "web client https formats have been skipped",
   "web_safari client https formats have been skipped",
   "tv client https formats have been skipped"]

/-- `shouldDisplayLogLine(line)`: the debug-off visibility filter. The
source coerces non-string inputs with `String(line ?? '')`; the model takes
string inputs directly. -/
def shouldDisplayLogLine (line : String) : Bool :=
  let trimmed := jsTrim line
  if trimmed = "" then false
  else
    let lowered := jsLower trimmed
    if jsStarts lowered "debug:" then false
    else if jsStarts lowered "warning:" then
      ! NOISY_WARNING_SNIPPETS.any (fun sn => jsIncludes lowered sn)
    else if jsStarts lowered "error:" then true
    else if jsStarts lowered "[download]" || jsStarts lowered "[ffmpeg]"
        || jsStarts lowered "[merger]" then true
    else IMPORTANT_LINE_SNIPPETS.any (fun sn => jsIncludes lowered sn)

/-- A rendered console line: display text plus semantic category. -/
structure LogLineView where
  text : String
  type : String
deriving Repr, DecidableEq

/-- Models `trimmed.match(/^LABEL:\s*(.*)$/i)` for a lowercase ASCII
`label` such as `"error:"`: the match succeeds exactly when `trimmed`
starts with the label case-insensitively and the part after the greedy
whitespace run holds no line terminator (`.` and `$` reject those without
the `m` flag); the capture is that remainder with original casing. -/
def matchLabelRest (label trimmed : String) : Option String :=
  if jsStarts (jsLower trimmed) label then
    let rest := (trimmed.data.drop label.length).dropWhile isJsSpace
    if hasLineTerm rest then none else some ⟨rest⟩
  else none

/-- The capture group of `matchLabelRest` when the label matches. -/
def labelRemainder (label t : String) : String :=
  ⟨(t.data.drop label.length).dropWhile isJsSpace⟩

/-- Models `trimmed.replace(/^LABEL:\s*/i, '')`. -/
def stripLabel (label trimmed : String) : String :=
  if jsStarts (jsLower trimmed) label then labelRemainder label trimmed
  else trimmed

/-- `interpretLogLine(rawText, forcedType)`: classify a raw log line.
`none` models an absent forced category (the source also treats the falsy
empty string as absent; callers only pass non-empty categories). -/
def interpretLogLine (rawText : String) (forcedType : Option String) : LogLineView :=
  let original := rawText
  let trimmed := jsTrim rawText
  match forcedType with
  | none =>
    match matchLabelRest "error:" trimmed with
    | some rest => { text := if rest = "" then "Error" else rest, type := "error" }
    | none =>
      match matchLabelRest "warning:" trimmed with
      | some rest => { text := if rest = "" then "Warning" else rest, type := "warning" }
      | none =>
        match matchLabelRest "debug:" trimmed with
        | some rest => { text := if rest = "" then "Debug" else rest, type := "debug" }
        | none =>
          if jsStarts trimmed "[download]" then { text := trimmed, type := "progress" }
          else if jsStarts trimmed "[ffmpeg]" then { text := trimmed, type := "ffmpeg" }
          else { text := original, type := "info" }
  | some ft =>
    if ft = "muted" then { text := original, type := "muted" }
    else if ft = "error" then
      let t := stripLabel "error:" trimmed
      { text := if t = "" then original else t, type := "error" }
    else if ft = "warning" then
      let t := stripLabel "warning:" trimmed
      { text := if t = "" then original else t, type := "warning" }
    else { text := original, type := ft }

/-- `appendConsoleLine(text, typeOverride)`: classify and prepend (the
source inserts before the console's first child). -/
def appendConsoleLine (console : List LogLineView) (text : String)
    (typeOverride : Option String) : List LogLineView :=
  interpretLogLine text typeOverride :: console

/-- The muted placeholder shown when the filter removed every line. -/
def VERBOSE_HIDDEN_MESSAGE : String :=
  "Verbose output hidden. Enable debug mode in Settings to view full yt-dlp logs."

/-- `renderLogLines(lines)`: clear the console and rebuild it from the
filtered (or, in debug mode, unfiltered) snapshot; the `state.lastLogs`
bookkeeping alters no rendered output and is omitted. -/
def renderLogLines (debugMode : Bool) (lines : List String) : List LogLineView :=
  let entries := lines
  let filtered := entries.filter (fun l => debugMode || shouldDisplayLogLine l)
  if filtered.isEmpty then
    if !entries.isEmpty && !debugMode then
      appendConsoleLine [] VERBOSE_HIDDEN_MESSAGE (some "muted")
    else
      appendConsoleLine [] "No output yet." (some "muted")
  else
    filtered.foldl (fun c l => appendConsoleLine c l none) []

/-! ### Download store, poller manager, cancellation

Source: `state`, `upsertDownload`, `normaliseJob`, `startJobPolling`,
`stopJobPolling`, `pollJob`, `cancelJob`, `buildDownloadItem`,
`renderDownloads` and the module constants of the final client script.
The `state` object literal initialises `downloads`, `pollers`, selection
fields and the two search sub-objects but declares no
`pendingCancellations` field, so that member stays `undefined`; the model
keeps it as an `Option` that starts out `none`, and every `.has`/`.add`/
`.delete` call on it raises the corresponding `TypeError` when it is
`none`. A thrown error aborts the rest of the JavaScript statement
sequence but keeps earlier mutations, which is why the operations return
`AppState × Option JsError`. Interval timers are modelled by a counter
handing out fresh positive handles and a list of handles not yet passed to
`clearInterval`. DOM elements (`elements.downloadsList`, the console) are
assumed present, as on the rendered page. -/

/-- A thrown JavaScript exception. -/
inductive JsError where
  | typeError (message : String)
  | httpError (message : String)
deriving Repr, DecidableEq

/-- The `TypeError` raised by calling a `Set` method on
`state.pendingCancellations`, which the `state` literal never declares. -/
def pendingCancellationsError : JsError :=
  .typeError "state.pendingCancellations is undefined"

/-- A stored download record. String fields that JavaScript would leave
`undefined` on a partial insert are modelled as `""` (equivalent in every
use site, which only tests membership in status tables). -/
structure Entry where
  id : String
  label : String := ""
  subtitle : String := ""
  status : String := ""
  progress : Int := 0
  metadata : List String := []
  message : String := ""
  startedAt : Nat := 0
  updatedAt : Nat := 0
deriving Repr, DecidableEq

/-- A partial record passed to `upsertDownload`; `none` models an absent
(`undefined`) field. -/
structure Update where
  id : String
  label : Option String := none
  subtitle : Option String := none
  status : Option String := none
  progress : Option Int := none
  metadata : Option (List String) := none
  message : Option String := none
  startedAt : Option Nat := none
  updatedAt : Option Nat := none
deriving Repr, DecidableEq

/-- The claim-relevant slice of the module-scoped `state` object plus the
interval-timer bookkeeping. -/
structure AppState where
  downloads : List Entry := []
  pollers : List (String × Nat) := []
  activeTimers : List Nat := []
  nextTimer : Nat := 0
  pendingCancellations : Option (List String) := none
  selectedJobId : Option String := none
  activeConsoleJobId : Option String := none
deriving Repr, DecidableEq

/-- The `state` literal of the source: `downloads: []`, `pollers: new
Map()`, null selection fields — and no `pendingCancellations` member. -/
def initialState : AppState := {}

def MAX_DOWNLOAD_ENTRIES : Nat := 8

def POLL_INTERVAL : Nat := 1000

def CANCELLABLE_STATUSES : List String := ["queued", "processing"]

def STATUS_LABELS : List (String × String) :=
  [("queued", "Queued"), ("processing", "Processing"), ("complete", "Completed"),
   ("failed", "Failed"), ("cancelled", "Cancelled")]

/-- The merge branch of `upsertDownload` (`index >= 0`): spread of
`existing` then `update`, with the explicit field overrides of the source,
`startedAt: update.startedAt || existing.startedAt` and
`updatedAt: update.updatedAt || new Date()` among them. -/
def mergeEntry (existing : Entry) (u : Update) (now : Nat) : Entry :=
  { id := u.id,
    label := u.label.getD existing.label,
    subtitle := u.subtitle.getD existing.subtitle,
    status := u.status.getD existing.status,
    progress := u.progress.getD existing.progress,
    metadata := u.metadata.getD existing.metadata,
    message := u.message.getD existing.message,
    startedAt := u.startedAt.getD existing.startedAt,
    updatedAt := u.updatedAt.getD now }

/-- The insert branch of `upsertDownload`: defaults, spread of `update`,
then `startedAt`/`updatedAt` falling back to `now`. -/
def insertedEntry (u : Update) (now : Nat) : Entry :=
  { id := u.id,
    label := u.label.getD "",
    subtitle := u.subtitle.getD "",
    status := u.status.getD "",
    progress := u.progress.getD 0,
    metadata := u.metadata.getD [],
    message := u.message.getD "",
    startedAt := u.startedAt.getD now,
    updatedAt := u.updatedAt.getD now }

/-- `findIndex` plus in-place assignment: replace the first entry whose id
matches `u.id` by the merged record, returning the new list and the merged
record, or `none` when no index matched. -/
def replaceFirst (u : Update) (now : Nat) : List Entry → Option (List Entry × Entry)
  | [] => none
  | e :: rest =>
    if e.id == u.id then
      some (mergeEntry e u now :: rest, mergeEntry e u now)
    else
      match replaceFirst u now rest with
      | some (l, m) => some (e :: l, m)
      | none => none

/-- One step of the stable insertion giving the same result as the
source's stable `Array.prototype.sort` under the comparator
`right.startedAt - left.startedAt` (descending, ties keep order). -/
def sortInsertDesc (x : Entry) : List Entry → List Entry
  | [] => [x]
  | y :: ys => if y.startedAt < x.startedAt then x :: y :: ys else y :: sortInsertDesc x ys

/-- The re-sort of `state.downloads` after an upsert. Every stored entry
carries a `startedAt` by construction, so the comparator's
`parseDate`/epoch fallback never fires. -/
def sortDownloadsDesc (l : List Entry) : List Entry :=
  l.foldl (fun acc x => sortInsertDesc x acc) []

/-- `stopJobPolling(jobId)`: clear the interval registered for the id and
drop the map entry; a no-op for a falsy id or an id that is not polling. -/
def stopJobPolling (jobId : String) (s : AppState) : AppState :=
  if jobId = "" then s
  else
    match s.pollers.lookup jobId with
    | some timer =>
      { s with activeTimers := s.activeTimers.erase timer,
               pollers := s.pollers.filter (fun p => p.1 != jobId) }
    | none => s

/-- `startJobPolling(jobId, options)`: bail out for a falsy id or an id
already in the poller map, otherwise register a fresh interval. The
immediate fire-and-forget `pollJob` call touches no timer bookkeeping; its
asynchronous effects are modelled by `pollJob` below. -/
def startJobPolling (jobId : String) (s : AppState) : AppState :=
  if jobId = "" || (s.pollers.lookup jobId).isSome then s
  else
    let timer := s.nextTimer + 1
    { s with nextTimer := timer,
             activeTimers := s.activeTimers ++ [timer],
             pollers := s.pollers ++ [(jobId, timer)] }

/-- `state.pendingCancellations.delete(jobId)`: a `TypeError` when the
member is `undefined`, otherwise the id leaves the set. -/
def deletePendingCancellation (jobId : String) (s : AppState) : AppState × Option JsError :=
  match s.pendingCancellations with
  | none => (s, some pendingCancellationsError)
  | some pcs => ({ s with pendingCancellations := some (pcs.erase jobId) }, none)

/-- The cancel control of `buildDownloadItem` for one job card: present
exactly for an entry with an id and a cancellable status, in which case the
source reads `state.pendingCancellations.has(entry.id)` to label and
disable the button. -/
structure CancelControl where
  jobId : String
  labelText : String
  disabled : Bool
deriving Repr, DecidableEq

/-- The `state`-reading part of `buildDownloadItem(entry)`: building a card
for a cancellable entry dereferences `state.pendingCancellations`. The
rest of the card touches only the entry itself and cannot throw. -/
def buildDownloadItemCancel (s : AppState) (entry : Entry) :
    Except JsError (Option CancelControl) :=
  if entry.id != "" && CANCELLABLE_STATUSES.contains entry.status then
    match s.pendingCancellations with
    | none => .error pendingCancellationsError
    | some pcs =>
      let isCancelling := pcs.contains entry.id
      .ok (some { jobId := entry.id,
                  labelText := if isCancelling then "Cancelling…" else "Cancel",
                  disabled := isCancelling })
  else .ok none

/-- `renderDownloads()`: drop a selection that no longer matches a stored
entry, then rebuild the list; building a card for a cancellable entry
throws when `state.pendingCancellations` is `undefined`
(`buildDownloadItemCancel`), aborting the render. -/
def renderDownloads (s : AppState) : AppState × Option JsError :=
  let s1 :=
    match s.selectedJobId with
    | some sel =>
      if s.downloads.any (fun item => item.id == sel) then s
      else { s with
        activeConsoleJobId := if s.activeConsoleJobId = some sel then none
                              else s.activeConsoleJobId,
        selectedJobId := none }
    | none => s
  (s1,
    if s1.downloads.any (fun e => e.id != "" && CANCELLABLE_STATUSES.contains e.status)
        && s1.pendingCancellations.isNone
    then some pendingCancellationsError else none)

/-- The `removed.forEach` eviction loop of `upsertDownload`: stop the
evicted poller, then delete the id from the pending-cancellation set — a
throw there aborts the remaining iterations. -/
def evictLoop : List Entry → AppState → AppState × Option JsError
  | [], s => (s, none)
  | e :: rest, s =>
    let s1 := stopJobPolling e.id s
    if e.id != "" then
      match s1.pendingCancellations with
      | none => (s1, some pendingCancellationsError)
      | some pcs => evictLoop rest { s1 with pendingCancellations := some (pcs.erase e.id) }
    else evictLoop rest s1

/-- The capacity check of `upsertDownload` on the already re-sorted list:
splice off everything beyond the capacity, run the eviction loop over the
removed tail, then re-render. -/
def trimDownloads (s : AppState) : AppState × Option JsError :=
  if MAX_DOWNLOAD_ENTRIES < s.downloads.length then
    match evictLoop (s.downloads.drop MAX_DOWNLOAD_ENTRIES)
        { s with downloads := s.downloads.take MAX_DOWNLOAD_ENTRIES } with
    | (s3, some err) => (s3, some err)
    | (s3, none) => renderDownloads s3
  else renderDownloads s

/-- The tail of `upsertDownload` after the merge/insert and the
pending-cancellation cleanup: re-sort, trim to capacity (tearing down the
evicted pollers), re-render. -/
def upsertFinish (s : AppState) : AppState × Option JsError :=
  trimDownloads { s with downloads := sortDownloadsDesc s.downloads }

/-- The merge-or-insert step of `upsertDownload`: the new list together
with the `updatedEntry` the source goes on to inspect. -/
def upsertCore (u : Update) (now : Nat) (l : List Entry) : List Entry × Entry :=
  match replaceFirst u now l with
  | some (l', m) => (l', m)
  | none => (l ++ [insertedEntry u now], insertedEntry u now)

/-- `upsertDownload(update)`: no-op without an id; merge at the matching
index or append a defaulted record; for a non-cancellable result, delete
its id from `state.pendingCancellations` (line of the source that throws
when that member is `undefined`, skipping sort, trim and render); then
sort, trim, render. -/
def upsertDownload (u : Update) (now : Nat) (s : AppState) : AppState × Option JsError :=
  if u.id = "" then (s, none)
  else
    let updatedEntry := (upsertCore u now s.downloads).2
    let s1 := { s with downloads := (upsertCore u now s.downloads).1 }
    if updatedEntry.id != "" && !(CANCELLABLE_STATUSES.contains updatedEntry.status) then
      match s1.pendingCancellations with
      | none => (s1, some pendingCancellationsError)
      | some pcs =>
        upsertFinish { s1 with pendingCancellations := some (pcs.erase updatedEntry.id) }
    else upsertFinish s1

/-- A raw job snapshot as the backend serialises it; `none` / `""` model
absent (falsy) members. -/
structure RawJob where
  id : String := ""
  status : String := ""
  label : String := ""
  subtitle : String := ""
  progress : Option Int := none
  metadata : Option (List String) := none
  message : String := ""
  started_at : Option Nat := none
  created_at : Option Nat := none
  updated_at : Option Nat := none
  completed_at : Option Nat := none
  logs : Option (List String) := none
deriving Repr, DecidableEq

/-- The status normalisation of `normaliseJob`: default `queued`, map the
backend alias `completed` to `complete`, fall back to `queued` for any key
missing from `STATUS_LABELS`. -/
def normaliseStatus (raw : String) : String :=
  let status0 := if raw = "" then "queued" else raw
  let status1 := if status0 = "completed" then "complete" else status0
  if (STATUS_LABELS.lookup status1).isSome then status1 else "queued"

/-- `normaliseJob(job)`: `null` for a snapshot without id, otherwise the
fully-populated update record fed to `upsertDownload` (`parseDate` of a
present timestamp succeeds; `now` models `new Date()`). -/
def normaliseJob (job : RawJob) (now : Nat) : Option Update :=
  if job.id = "" then none
  else
    let startedAt := (job.started_at.orElse (fun _ => job.created_at)).getD now
    let updatedAt :=
      (((job.updated_at.orElse (fun _ => job.completed_at)).orElse
          (fun _ => job.started_at)).orElse (fun _ => job.created_at)).getD startedAt
    some
      { id := job.id,
        label := some (if job.label = "" then "Radarr Download" else job.label),
        subtitle := some job.subtitle,
        status := some (normaliseStatus job.status),
        progress := some (match job.progress with
          | some p => max 0 (min 100 p)
          | none => 0),
        metadata := some (job.metadata.getD []),
        message := some job.message,
        startedAt := some startedAt,
        updatedAt := some updatedAt }

/-- How one `pollJob` fetch settles. -/
inductive JobFetch where
  | failure (message : String)
  | noJob
  | job (j : RawJob)
deriving Repr

/-- The `catch` block of `pollJob`: log an error line (console only), stop
the poller, then delete the id from the pending-cancellation set — the
last step itself throws when that member is `undefined`. -/
def pollJobCatch (jobId : String) (s : AppState) : AppState × Option JsError :=
  let s1 := stopJobPolling jobId s
  deletePendingCancellation jobId s1

/-- The `try` block of one `pollJob` tick, given how the fetch settled.
Console rendering (`renderLogLines`, the not-found message) and the
`debug_mode` sync touch none of the modelled fields and are noted here
rather than threaded; `notifyNotFound`/`showConsole` only select those
console effects. -/
def pollJobTry (jobId : String) (notifyNotFound showConsole : Bool)
    (outcome : JobFetch) (now : Nat) (s : AppState) : AppState × Option JsError :=
  match outcome with
  | .failure msg => (s, some (.httpError msg))
  | .noJob =>
    let s1 := { s with activeConsoleJobId :=
      if s.activeConsoleJobId = some jobId then none else s.activeConsoleJobId }
    let (s2, rerr) :=
      if s1.selectedJobId = some jobId then
        renderDownloads { s1 with selectedJobId := none }
      else (s1, none)
    match rerr with
    | some err => (s2, some err)
    | none => deletePendingCancellation jobId (stopJobPolling jobId s2)
  | .job j =>
    let (s1, e1) :=
      match normaliseJob j now with
      | some u => upsertDownload u now s
      | none => (s, none)
    match e1 with
    | some err => (s1, some err)
    | none =>
      if j.status = "complete" || j.status = "failed" || j.status = "cancelled" then
        match deletePendingCancellation jobId s1 with
        | (s2, some err) => (s2, some err)
        | (s2, none) => (stopJobPolling jobId s2, none)
      else (s1, none)

/-- One `pollJob(jobId, options)` tick: the `try` block, with any throw
routed through the `catch` block (whose own throw escapes the tick). -/
def pollJob (jobId : String) (notifyNotFound showConsole : Bool)
    (outcome : JobFetch) (now : Nat) (s : AppState) : AppState × Option JsError :=
  if jobId = "" then (s, none)
  else
    match pollJobTry jobId notifyNotFound showConsole outcome now s with
    | (s1, none) => (s1, none)
    | (s1, some _) => pollJobCatch jobId s1

/-- How the `POST /jobs/id/cancel` request settles; a JSON body that fails
to parse leaves `data = null`, modelled by `none` members. -/
inductive CancelFetch where
  | failure (message : String)
  | response (ok : Bool) (message : Option String) (errorMsg : Option String)
      (job : Option RawJob)
deriving Repr

/-- The `try` block of `cancelJob` after the pending flag was set and the
list re-rendered: on a non-ok response clear the flag and re-render; on
success merge any returned snapshot (else re-render) and resume polling. -/
def cancelJobTry (jobId : String) (outcome : CancelFetch) (now : Nat) (s : AppState) :
    AppState × Option JsError :=
  match outcome with
  | .failure msg => (s, some (.httpError msg))
  | .response ok message errorMsg job? =>
    if !ok then
      match deletePendingCancellation jobId s with
      | (s1, some err) => (s1, some err)
      | (s1, none) => renderDownloads s1
    else
      match job?.bind (fun j => normaliseJob j now) with
      | some u =>
        match upsertDownload u now s with
        | (s1, some err) => (s1, some err)
        | (s1, none) => (startJobPolling jobId s1, none)
      | none =>
        match renderDownloads s with
        | (s1, some err) => (s1, some err)
        | (s1, none) => (startJobPolling jobId s1, none)

/-- `cancelJob(jobId)`: bail out for a falsy id or an id already pending —
a test that dereferences `state.pendingCancellations` and therefore throws
when that member is `undefined`, before any effect; otherwise add the id,
re-render (outside the `try`, so a throw there escapes), run the request,
and on any `try`-block throw clear the flag and re-render. -/
def cancelJob (jobId : String) (outcome : CancelFetch) (now : Nat) (s : AppState) :
    AppState × Option JsError :=
  if jobId = "" then (s, none)
  else
    match s.pendingCancellations with
    | none => (s, some pendingCancellationsError)
    | some pcs =>
      if pcs.contains jobId then (s, none)
      else
        let s1 := { s with pendingCancellations := some (pcs ++ [jobId]) }
        match renderDownloads s1 with
        | (s2, some err) => (s2, some err)
        | (s2, none) =>
          match cancelJobTry jobId outcome now s2 with
          | (s3, none) => (s3, none)
          | (s3, some _) =>
            match deletePendingCancellation jobId s3 with
            | (s4, some err) => (s4, some err)
            | (s4, none) => renderDownloads s4

/-! ### The earlier `static/script.js` poller

That iteration keys `jobPollers` by id to an info object holding the
`showConsole` flag and the interval handle; `beginJobPolling` on an id
already present only upgrades the flag. -/

namespace LegacyClient

structure PollerInfo where
  showConsole : Bool
  timer : Option Nat
deriving Repr, DecidableEq

structure PollState where
  jobPollers : List (String × PollerInfo) := []
  activeTimers : List Nat := []
  nextTimer : Nat := 0
deriving Repr, DecidableEq

/-- `beginJobPolling(jobId, showConsole)` of `static/script.js`. -/
def beginJobPolling (jobId : String) (showConsole : Bool) (s : PollState) : PollState :=
  if jobId = "" then s
  else
    match s.jobPollers.lookup jobId with
    | some _ =>
      if showConsole then
        { s with jobPollers := s.jobPollers.map (fun p =>
            if p.1 == jobId then (p.1, { p.2 with showConsole := true }) else p) }
      else s
    | none =>
      let t := s.nextTimer + 1
      { jobPollers := s.jobPollers ++ [(jobId, { showConsole := showConsole, timer := some t })],
        activeTimers := s.activeTimers ++ [t],
        nextTimer := t }

/-- `stopJobPolling(jobId)` of `static/script.js`: clear the interval if
one is registered, then delete the map entry unconditionally. -/
def stopJobPolling (jobId : String) (s : PollState) : PollState :=
  let s1 :=
    match s.jobPollers.lookup jobId with
    | some info =>
      match info.timer with
      | some t => { s with activeTimers := s.activeTimers.erase t }
      | none => s
    | none => s
  { s1 with jobPollers := s1.jobPollers.filter (fun p => p.1 != jobId) }

end LegacyClient

/-! ### Search coordinators

Source: `performYouTubeSearch` (and its helpers `setYouTubeSearchFeedback`,
`renderYouTubeSearchResults`, `clearYouTubeSearchResults`,
`setYouTubeSearchLoading`) and `performAddMovieSearch` of the final client
script. Each in-flight request is an async function that suspends at its
`await` points; between two suspensions the shared token and the view may
be changed by a newer request. The model therefore splits a request into
resumption functions, each taking the token value and the view current at
that resumption. Result items are kept opaque. -/

/-- The YouTube-search slice of `state` together with its rendered DOM
projections: the stored result list, the rendered result list, the
feedback line (text and `dataset.state`), the loading flag. -/
structure YtSearchView where
  results : List String := []
  rendered : List String := []
  feedback : String := ""
  feedbackState : String := ""
  loading : Bool := false
deriving Repr, DecidableEq

/-- `setYouTubeSearchFeedback(message, type)`; a cleared `dataset.state`
is modelled as `""`. -/
def setYouTubeSearchFeedback (message state : String) (v : YtSearchView) : YtSearchView :=
  { v with feedback := message, feedbackState := state }

/-- `renderYouTubeSearchResults()`: the DOM mirrors `state.results`. -/
def renderYouTubeSearchResults (v : YtSearchView) : YtSearchView :=
  { v with rendered := v.results }

/-- `clearYouTubeSearchResults()`. -/
def clearYouTubeSearchResults (v : YtSearchView) : YtSearchView :=
  renderYouTubeSearchResults { v with results := [] }

/-- The synchronous head of `performYouTubeSearch` for a long-enough
query: abort the previous request, set loading, show the progress
message. -/
def ytSearchBegin (v : YtSearchView) : YtSearchView :=
  setYouTubeSearchFeedback "Searching YouTube…" "" { v with loading := true }

/-- How the `fetch` of a YouTube search settles. -/
inductive YtFetchOutcome where
  | rejects (isAbort : Bool) (message : String)
  | resolves (ok : Bool) (httpStatus : Nat) (results : List String) (cached : Bool)
deriving Repr, DecidableEq

/-- Resumption of `performYouTubeSearch` when its `fetch` promise settles.
`t` is the token captured at dispatch, `tok1` the shared token at this
resumption, `v` the view at this resumption. `.inl v'` means the handler
completes here (stale-token guard, abort, error path — each running the
`finally` block); `.inr (results, cached)` means the code reaches `await
response.json()` and suspends again. -/
def ytAfterFetch (t tok1 : Nat) (outcome : YtFetchOutcome) (v : YtSearchView) :
    YtSearchView ⊕ (List String × Bool) :=
  match outcome with
  | .rejects isAbort message =>
    if tok1 != t then .inl v
    else if isAbort then .inl { v with loading := false }
    else
      .inl { clearYouTubeSearchResults
        (setYouTubeSearchFeedback ("Failed to search YouTube: " ++ message) "error" v)
        with loading := false }
  | .resolves ok httpStatus results cached =>
    if tok1 != t then .inl v
    else if !ok then
      .inl { clearYouTubeSearchResults
        (setYouTubeSearchFeedback ("Failed to search YouTube: HTTP " ++ toString httpStatus)
          "error" v)
        with loading := false }
    else .inr (results, cached)

/-- Resumption of `performYouTubeSearch` when `response.json()` settles:
the source re-checks no token here, so the stored results, the feedback
and the rendered list are written regardless of `tok2`; only the `finally`
block consults the token. -/
def ytAfterJson (t tok2 : Nat) (results : List String) (cached : Bool)
    (v : YtSearchView) : YtSearchView :=
  let v1 := { v with results := results }
  let v2 :=
    if results.isEmpty then
      setYouTubeSearchFeedback "No results found for that query." "warning" v1
    else if cached then
      setYouTubeSearchFeedback "Showing cached results." "success" v1
    else
      setYouTubeSearchFeedback "Search complete." "success" v1
  let v3 := renderYouTubeSearchResults v2
  if tok2 == t then { v3 with loading := false } else v3

/-- A Radarr catalog result as far as the coordinator inspects it: the
source keeps items whose `tmdbId` is truthy. -/
structure AddMovieItem where
  name : String
  tmdbId : Nat
deriving Repr, DecidableEq

/-- The add-movie slice of `state.addMovie` with its DOM projections. -/
structure AddMovieView where
  results : List AddMovieItem := []
  rendered : List AddMovieItem := []
  selectedIndex : Int := -1
  selectedMovie : Option AddMovieItem := none
  status : String := ""
  statusState : String := ""
  loading : Bool := false
  confirmDisabled : Bool := false
deriving Repr, DecidableEq

/-- `setAddMovieStatus(message, type)`. -/
def setAddMovieStatus (message state : String) (v : AddMovieView) : AddMovieView :=
  { v with status := message, statusState := state }

/-- `renderAddMovieResults()`. -/
def renderAddMovieResults (v : AddMovieView) : AddMovieView :=
  { v with rendered := v.results }

/-- The synchronous head of `performAddMovieSearch`: the token was just
incremented to the captured value `t`. -/
def addMovieSearchBegin (v : AddMovieView) : AddMovieView :=
  setAddMovieStatus "Searching Radarr…" "info"
    { v with loading := true, confirmDisabled := true }

/-- How a Radarr search settles. `response.json().catch(() => ({}))`
swallows parse failures, so the only rejection path is the fetch itself;
either way the handler resumes exactly once, at the token guard. -/
inductive AddMovieOutcome where
  | rejects (message : String)
  | resolves (ok : Bool) (httpStatus : Nat) (errorMsg : Option String)
      (results : List AddMovieItem)
deriving Repr, DecidableEq

/-- Resumption of `performAddMovieSearch` once fetch and body parse have
settled. `tokR` is the shared token at this resumption; unlike the
YouTube coordinator, the guard here runs after the body parse, before any
mutation, in the success, error-response and rejection branches alike. -/
def addMovieAfterResponse (t tokR : Nat) (outcome : AddMovieOutcome) (v : AddMovieView) :
    AddMovieView :=
  match outcome with
  | .rejects message =>
    if tokR != t then v
    else
      { setAddMovieStatus ("Failed to search Radarr: " ++ message) "error"
          (renderAddMovieResults
            { v with results := [], selectedIndex := -1, selectedMovie := none })
        with loading := false }
  | .resolves ok httpStatus errorMsg results =>
    if tokR != t then v
    else if !ok then
      let message :=
        match errorMsg with
        | some m => if m != "" then m else "Search failed (HTTP " ++ toString httpStatus ++ ")."
        | none => "Search failed (HTTP " ++ toString httpStatus ++ ")."
      { setAddMovieStatus message "error"
          (renderAddMovieResults
            { v with results := [], selectedIndex := -1, selectedMovie := none })
        with loading := false }
    else
      let filtered := results.filter (fun item => item.tmdbId != 0)
      let v1 := renderAddMovieResults
        { v with results := filtered, selectedIndex := -1, selectedMovie := none }
      let v2 :=
        if filtered.isEmpty then
          setAddMovieStatus "No matches found in Radarr for that search." "warning" v1
        else
          setAddMovieStatus "Select a movie below to add it to Radarr." "info" v1
      { v2 with loading := false }


/-! ### Concrete instances used by the claim checks -/

/-- A stored queued record used by the C1 witness. -/
def c1Stored : Entry := { id := "j1", status := "queued", startedAt := 100, updatedAt := 100 }

/-- A store holding `c1Stored`. -/
def c1State : AppState := { downloads := [c1Stored] }

/-- C1 witness update: a later merge that carries its own `startedAt`. -/
def c1Merge : Update :=
  { id := "j1", status := some "queued", startedAt := some 200, updatedAt := some 250 }

/-- The record produced by merging `c1Merge` into `c1Stored` at time 250. -/
def c1Merged : Entry := { id := "j1", status := "queued", startedAt := 200, updatedAt := 250 }

/-- First upsert of the C1 counterexample sequence: effective start 100. -/
def c1First : Update :=
  { id := "j1", status := some "queued", startedAt := some 100, updatedAt := some 100 }

/-- Second upsert of the C1 counterexample sequence, carrying a later
`startedAt`. -/
def c1Second : Update :=
  { id := "j1", status := some "queued", startedAt := some 200, updatedAt := some 200 }

/-- The i-th queued snapshot of the C2 failing sequence. -/
def c2Update (i : Nat) : Update :=
  { id := "job-" ++ toString i, status := some "queued",
    startedAt := some (100 * i), updatedAt := some (100 * i) }

/-- The store after upserting eight distinct queued snapshots into the
initial state (each call already returns the render-time `TypeError`, but
its mutations stand). -/
def c2Store : AppState :=
  (List.range 8).foldl
    (fun s i => (upsertDownload (c2Update (i + 1)) (100 * (i + 1)) s).1) initialState

/-- A ninth, new snapshot whose status is terminal. -/
def c2Ninth : Update :=
  { id := "job-9", status := some "complete", startedAt := some 900, updatedAt := some 900 }

/-- A queued snapshot for the C4 failing input. -/
def c4Queued : Update :=
  { id := "job-1", status := some "queued", startedAt := some 100, updatedAt := some 100 }

/-- The store holding the queued job the C4 cancel action targets. -/
def c4Store : AppState := (upsertDownload c4Queued 100 initialState).1

/-- A queued job card entry for the C5 failing input. -/
def c5Entry : Entry := { id := "job-1", status := "queued", startedAt := 100, updatedAt := 100 }

/-- The view a newer YouTube request has left behind by the time the stale
request's body parse resumes: its own results are stored and rendered. -/
def c3NewerView : YtSearchView :=
  { results := ["videoA"], rendered := ["videoA"],
    feedback := "Showing cached results.", feedbackState := "success", loading := false }

/-- A fetched snapshot carrying the backend alias status `completed`. -/
def c7Job : RawJob := { id := "j1", status := "completed", started_at := some 100 }

/-- A state in which job `j1` is being polled. -/
def c7State : AppState := startJobPolling "j1" initialState

end YtToRadarr
namespace YtToRadarr

/-! ### Helper lemmas -/

lemma not_both_isPrefixOf {a b l : List Char} (hab : ¬ a <+: b) (hba : ¬ b <+: a)
    (ha : a.isPrefixOf l = true) (hb : b.isPrefixOf l = true) : False := by
  rcases List.prefix_or_prefix_of_prefix (List.isPrefixOf_iff_prefix.mp ha)
      (List.isPrefixOf_iff_prefix.mp hb) with h | h
  · exact hab h
  · exact hba h

lemma jsStarts_excl {t a b : String} (hab : ¬ a.data <+: b.data)
    (hba : ¬ b.data <+: a.data) (ha : jsStarts t a = true) :
    jsStarts t b = false := by
  cases hb : jsStarts t b
  · rfl
  · exact absurd (not_both_isPrefixOf hab hba ha hb) not_false

lemma jsStarts_jsLower_of_jsStarts {t pat : String}
    (hpat : pat.data.map Char.toLower = pat.data) (h : jsStarts t pat = true) :
    jsStarts (jsLower t) pat = true := by
  unfold jsStarts jsLower
  apply List.isPrefixOf_iff_prefix.mpr
  have h2 := (List.isPrefixOf_iff_prefix.mp h).map Char.toLower
  rwa [hpat] at h2

lemma mem_trimChars {c : Char} {l : List Char} (h : c ∈ trimChars l) : c ∈ l := by
  unfold trimChars at h
  have h1 := List.mem_reverse.mp h
  have h2 := (List.dropWhile_sublist _).mem h1
  have h3 := List.mem_reverse.mp h2
  exact (List.dropWhile_sublist _).mem h3

lemma mem_jsTrim {c : Char} {line : String} (h : c ∈ (jsTrim line).data) :
    c ∈ line.data := mem_trimChars h

lemma hasLineTerm_remainder_false {line label : String}
    (hnl : ∀ c ∈ line.data, c ≠ '\n' ∧ c ≠ '\r') :
    hasLineTerm (((jsTrim line).data.drop label.length).dropWhile isJsSpace) = false := by
  apply List.any_eq_false.mpr
  intro c hc
  have h1 := (List.dropWhile_sublist _).mem hc
  have h2 := (List.drop_sublist _ _).mem h1
  have h3 := mem_jsTrim h2
  rcases hnl c h3 with ⟨hn, hr⟩
  simp [hn, hr]

lemma matchLabelRest_pos {label t : String} (h : jsStarts (jsLower t) label = true)
    (hnl : hasLineTerm ((t.data.drop label.length).dropWhile isJsSpace) = false) :
    matchLabelRest label t = some (labelRemainder label t) := by
  simp [matchLabelRest, labelRemainder, h, hnl]

lemma matchLabelRest_neg {label t : String} (h : jsStarts (jsLower t) label = false) :
    matchLabelRest label t = none := by
  simp [matchLabelRest, h]

end YtToRadarr
namespace YtToRadarr

/-! ### C8 — log classifier -/

/-- C8 counterexample: the claim says a `[download]`-prefixed line keeps its
text unchanged, but the source assigns the *trimmed* line, so any
surrounding whitespace is dropped: classifying `"[download] 42.0% "`
(trailing blank) yields text `"[download] 42.0%"`, not the input. -/
theorem c8_counterexample :
    interpretLogLine "[download] 42.0% " none =
      { text := "[download] 42.0%", type := "progress" } ∧
    "[download] 42.0%" ≠ "[download] 42.0% " := by
  constructor
  · rfl
  · decide

/-- C8 (amended): without a forced category the classifier applies the
prefix rules in order on the trimmed line — `ERROR:` (case-insensitive)
gives category `error` with text the remainder after the label and its
whitespace run, defaulting to `"Error"` when empty; `WARNING:` gives
`warning`; `DEBUG:` gives `debug`; a literal `[download]` start gives
`progress` and `[ffmpeg]` gives `ffmpeg`, each with text the *trimmed*
line; anything else is `info` with the text unchanged. Stated for inputs
without line terminators, where the source's `^…$` regexes reduce to the
prefix tests. -/
theorem c8_classifier (line : String) (hnl : ∀ c ∈ line.data, c ≠ '\n' ∧ c ≠ '\r') :
    (jsStarts (jsLower (jsTrim line)) "error:" = true →
      interpretLogLine line none =
        { text := if labelRemainder "error:" (jsTrim line) = "" then "Error"
                  else labelRemainder "error:" (jsTrim line),
          type := "error" }) ∧
    (jsStarts (jsLower (jsTrim line)) "warning:" = true →
      (interpretLogLine line none).type = "warning") ∧
    (jsStarts (jsLower (jsTrim line)) "debug:" = true →
      (interpretLogLine line none).type = "debug") ∧
    (jsStarts (jsTrim line) "[download]" = true →
      interpretLogLine line none = { text := jsTrim line, type := "progress" }) ∧
    (jsStarts (jsTrim line) "[ffmpeg]" = true →
      interpretLogLine line none = { text := jsTrim line, type := "ffmpeg" }) ∧
    (jsStarts (jsLower (jsTrim line)) "error:" = false →
     jsStarts (jsLower (jsTrim line)) "warning:" = false →
     jsStarts (jsLower (jsTrim line)) "debug:" = false →
     jsStarts (jsTrim line) "[download]" = false →
     jsStarts (jsTrim line) "[ffmpeg]" = false →
      interpretLogLine line none = { text := line, type := "info" }) := by
  refine ⟨?_, ?_, ?_, ?_, ?_, ?_⟩
  · intro h
    have hm := matchLabelRest_pos h (hasLineTerm_remainder_false hnl)
    simp [interpretLogLine, hm]
  · intro h
    have he := jsStarts_excl (a := "warning:") (b := "error:") (by decide) (by decide) h
    have hm1 := matchLabelRest_neg he
    have hm2 := matchLabelRest_pos h (hasLineTerm_remainder_false hnl)
    simp [interpretLogLine, hm1, hm2]
  · intro h
    have he := jsStarts_excl (a := "debug:") (b := "error:") (by decide) (by decide) h
    have hw := jsStarts_excl (a := "debug:") (b := "warning:") (by decide) (by decide) h
    have hm1 := matchLabelRest_neg he
    have hm2 := matchLabelRest_neg hw
    have hm3 := matchLabelRest_pos h (hasLineTerm_remainder_false hnl)
    simp [interpretLogLine, hm1, hm2, hm3]
  · intro h
    have hl := jsStarts_jsLower_of_jsStarts (by decide) h
    have he := jsStarts_excl (a := "[download]") (b := "error:") (by decide) (by decide) hl
    have hw := jsStarts_excl (a := "[download]") (b := "warning:") (by decide) (by decide) hl
    have hd := jsStarts_excl (a := "[download]") (b := "debug:") (by decide) (by decide) hl
    simp [interpretLogLine, matchLabelRest_neg he, matchLabelRest_neg hw,
      matchLabelRest_neg hd, h]
  · intro h
    have hl := jsStarts_jsLower_of_jsStarts (by decide) h
    have he := jsStarts_excl (a := "[ffmpeg]") (b := "error:") (by decide) (by decide) hl
    have hw := jsStarts_excl (a := "[ffmpeg]") (b := "warning:") (by decide) (by decide) hl
    have hd := jsStarts_excl (a := "[ffmpeg]") (b := "debug:") (by decide) (by decide) hl
    have hdl := jsStarts_excl (a := "[ffmpeg]") (b := "[download]") (by decide) (by decide) h
    simp [interpretLogLine, matchLabelRest_neg he, matchLabelRest_neg hw,
      matchLabelRest_neg hd, hdl, h]
  · intro he hw hd hdl hff
    simp [interpretLogLine, matchLabelRest_neg he, matchLabelRest_neg hw,
      matchLabelRest_neg hd, hdl, hff]

/-- C8 witness: the amended classifier applied to the claim's own examples. -/
theorem c8_classifier_witness :
    interpretLogLine "ERROR: disk full" none = { text := "disk full", type := "error" } ∧
    interpretLogLine "plain line" none = { text := "plain line", type := "info" } := by
  constructor
  · have h := (c8_classifier "ERROR: disk full" (by decide)).1 (by decide)
    rw [h]; rfl
  · exact (c8_classifier "plain line" (by decide)).2.2.2.2.2
      (by decide) (by decide) (by decide) (by decide) (by decide)

end YtToRadarr
namespace YtToRadarr

/-! ### C9 — debug-off visibility filter -/

/-- C9: with debug mode off, `shouldDisplayLogLine` rejects blank and
`debug:`-prefixed lines; keeps a `warning:` line exactly when it holds no
noisy snippet (all tests on the trimmed, lowercased line); keeps every
`error:` line and every `[download]`/`[ffmpeg]`/`[merger]` line; and keeps
any other line exactly when it holds an important snippet. -/
theorem c9_filter (line : String) :
    (jsTrim line = "" → shouldDisplayLogLine line = false) ∧
    (jsStarts (jsLower (jsTrim line)) "debug:" = true →
      shouldDisplayLogLine line = false) ∧
    (jsStarts (jsLower (jsTrim line)) "warning:" = true →
      (shouldDisplayLogLine line = true ↔
        ∀ sn ∈ NOISY_WARNING_SNIPPETS, jsIncludes (jsLower (jsTrim line)) sn = false)) ∧
    (jsStarts (jsLower (jsTrim line)) "error:" = true →
      shouldDisplayLogLine line = true) ∧
    ((jsStarts (jsLower (jsTrim line)) "[download]" = true ∨
      jsStarts (jsLower (jsTrim line)) "[ffmpeg]" = true ∨
      jsStarts (jsLower (jsTrim line)) "[merger]" = true) →
      shouldDisplayLogLine line = true) ∧
    (jsTrim line ≠ "" →
     jsStarts (jsLower (jsTrim line)) "debug:" = false →
     jsStarts (jsLower (jsTrim line)) "warning:" = false →
     jsStarts (jsLower (jsTrim line)) "error:" = false →
     jsStarts (jsLower (jsTrim line)) "[download]" = false →
     jsStarts (jsLower (jsTrim line)) "[ffmpeg]" = false →
     jsStarts (jsLower (jsTrim line)) "[merger]" = false →
      (shouldDisplayLogLine line = true ↔
        ∃ sn ∈ IMPORTANT_LINE_SNIPPETS, jsIncludes (jsLower (jsTrim line)) sn = true)) := by
  by_cases ht : jsTrim line = ""
  · refine ⟨fun _ => by simp [shouldDisplayLogLine, ht], ?_, ?_, ?_, ?_, ?_⟩
    · intro h; rw [ht] at h; exact absurd h (by decide)
    · intro h; rw [ht] at h; exact absurd h (by decide)
    · intro h; rw [ht] at h; exact absurd h (by decide)
    · intro h; rcases h with h | h | h <;> rw [ht] at h <;> exact absurd h (by decide)
    · intro h; exact absurd ht h
  · refine ⟨fun h => absurd h ht, ?_, ?_, ?_, ?_, ?_⟩
    · intro h
      simp [shouldDisplayLogLine, ht, h]
    · intro h
      have hd := jsStarts_excl (a := "warning:") (b := "debug:") (by decide) (by decide) h
      simp [shouldDisplayLogLine, ht, hd, h, List.any_eq_false]
    · intro h
      have hd := jsStarts_excl (a := "error:") (b := "debug:") (by decide) (by decide) h
      have hw := jsStarts_excl (a := "error:") (b := "warning:") (by decide) (by decide) h
      simp [shouldDisplayLogLine, ht, hd, hw, h]
    · intro h
      rcases h with h | h | h
      · have hd := jsStarts_excl (a := "[download]") (b := "debug:") (by decide) (by decide) h
        have hw := jsStarts_excl (a := "[download]") (b := "warning:") (by decide) (by decide) h
        have he := jsStarts_excl (a := "[download]") (b := "error:") (by decide) (by decide) h
        simp [shouldDisplayLogLine, ht, hd, hw, he, h]
      · have hd := jsStarts_excl (a := "[ffmpeg]") (b := "debug:") (by decide) (by decide) h
        have hw := jsStarts_excl (a := "[ffmpeg]") (b := "warning:") (by decide) (by decide) h
        have he := jsStarts_excl (a := "[ffmpeg]") (b := "error:") (by decide) (by decide) h
        simp [shouldDisplayLogLine, ht, hd, hw, he, h]
      · have hd := jsStarts_excl (a := "[merger]") (b := "debug:") (by decide) (by decide) h
        have hw := jsStarts_excl (a := "[merger]") (b := "warning:") (by decide) (by decide) h
        have he := jsStarts_excl (a := "[merger]") (b := "error:") (by decide) (by decide) h
        simp [shouldDisplayLogLine, ht, hd, hw, he, h]
    · intro _ hd hw he hdl hff hm
      simp [shouldDisplayLogLine, ht, hd, hw, he, hdl, hff, hm, List.any_eq_true]

/-- C9 witness: the filter clauses applied to the claim's examples. -/
theorem c9_filter_witness :
    shouldDisplayLogLine "ERROR: boom" = true ∧
    shouldDisplayLogLine "DEBUG: verbose trace" = false ∧
    shouldDisplayLogLine "WARNING: [youtube] cookie notice" = false ∧
    shouldDisplayLogLine "WARNING: disk almost full" = true := by
  refine ⟨(c9_filter "ERROR: boom").2.2.2.1 (by decide),
    (c9_filter "DEBUG: verbose trace").2.1 (by decide), by decide,
    ((c9_filter "WARNING: disk almost full").2.2.1 (by decide)).mpr (by decide)⟩

/-! ### C10 — placeholder rendering -/

/-- C10: a non-empty snapshot whose every line the debug-off filter
rejects renders as exactly one muted verbose-hidden placeholder, and an
empty snapshot renders as exactly one muted no-output placeholder. -/
theorem c10_placeholders :
    (∀ lines : List String, lines ≠ [] →
      (∀ l ∈ lines, shouldDisplayLogLine l = false) →
      renderLogLines false lines =
        [{ text := VERBOSE_HIDDEN_MESSAGE, type := "muted" }]) ∧
    (∀ debugMode : Bool, renderLogLines debugMode [] =
        [{ text := "No output yet.", type := "muted" }]) := by
  constructor
  · intro lines hne hall
    have hf : lines.filter (fun l => false || shouldDisplayLogLine l) = [] := by
      apply List.filter_eq_nil_iff.mpr
      intro a ha
      simp [hall a ha]
    simp [renderLogLines, hf, hne, appendConsoleLine]
    rw [if_pos hall]
    rfl
  · intro debugMode
    cases debugMode <;> rfl

/-- C10 witness: a concrete fully-filtered snapshot and the empty one. -/
theorem c10_placeholders_witness :
    renderLogLines false ["DEBUG: a", "debug: b"] =
      [{ text := VERBOSE_HIDDEN_MESSAGE, type := "muted" }] ∧
    renderLogLines true [] = [{ text := "No output yet.", type := "muted" }] :=
  ⟨c10_placeholders.1 ["DEBUG: a", "debug: b"] (by decide) (by decide),
   c10_placeholders.2 true⟩

end YtToRadarr
namespace YtToRadarr

/-! ### C3 — search supersession guards -/

/-- C3 counterexample: a YouTube search captured with token 1 passes the
only token guard while the token is still 1 (so `ytAfterFetch` proceeds to
`await response.json()`), a newer request then bumps the token to 2 and
leaves `c3NewerView`; when the stale body parse resumes, the source
re-checks nothing and overwrites the stored results, the rendered list and
the feedback — all three now differ from what the newer request wrote,
although the stale response completed after being superseded. -/
theorem c3_counterexample :
    ytAfterFetch 1 1 (.resolves true 200 ["videoB"] false) (ytSearchBegin {}) =
      Sum.inr (["videoB"], false) ∧
    ytAfterJson 1 2 ["videoB"] false c3NewerView =
      { results := ["videoB"], rendered := ["videoB"],
        feedback := "Search complete.", feedbackState := "success", loading := false } ∧
    c3NewerView.results ≠ ["videoB"] ∧
    c3NewerView.rendered ≠ ["videoB"] ∧
    c3NewerView.feedback ≠ "Search complete." := by
  refine ⟨rfl, rfl, by decide, by decide, by decide⟩

/-- C3 (amended): each coordinator discards a superseded response at its
token-guard point and mutates nothing there — for the YouTube search that
point is the resumption where `fetch` settles (rejection, non-ok and
stale branches alike), for the Radarr search it is the single resumption
after the body parse; the YouTube coordinator, however, re-checks nothing
after its own body parse (`c3_counterexample`). -/
theorem c3_token_guard :
    (∀ (t tok1 : Nat) (o : YtFetchOutcome) (v : YtSearchView), tok1 ≠ t →
      ytAfterFetch t tok1 o v = Sum.inl v) ∧
    (∀ (t tokR : Nat) (o : AddMovieOutcome) (v : AddMovieView), tokR ≠ t →
      addMovieAfterResponse t tokR o v = v) := by
  constructor
  · intro t tok1 o v h
    cases o <;> simp [ytAfterFetch, h]
  · intro t tokR o v h
    cases o <;> simp [addMovieAfterResponse, h]

/-- C3 witness: the guards applied at concrete superseded tokens. -/
theorem c3_token_guard_witness :
    ytAfterFetch 1 2 (.resolves true 200 ["x"] false) ({} : YtSearchView) =
      Sum.inl ({} : YtSearchView) ∧
    addMovieAfterResponse 1 2 (.rejects "boom") ({} : AddMovieView) =
      ({} : AddMovieView) :=
  ⟨c3_token_guard.1 1 2 (.resolves true 200 ["x"] false) {} (by decide),
   c3_token_guard.2 1 2 (.rejects "boom") {} (by decide)⟩

end YtToRadarr
namespace YtToRadarr

/-! ### Store lemmas -/

lemma replaceFirst_eq_some {u : Update} {now : Nat} {l l' : List Entry} {m : Entry}
    (h : replaceFirst u now l = some (l', m)) :
    m ∈ l' ∧ m.id = u.id ∧ l'.map Entry.id = l.map Entry.id := by
  induction l generalizing l' with
  | nil => simp [replaceFirst] at h
  | cons e rest ih =>
    by_cases he : (e.id == u.id) = true
    · simp only [replaceFirst, he, if_true, Option.some.injEq, Prod.mk.injEq] at h
      obtain ⟨hl, hm⟩ := h
      subst hl; subst hm
      refine ⟨List.mem_cons_self _ _, rfl, ?_⟩
      have he' : e.id = u.id := by simpa using he
      simp [mergeEntry, he']
    · simp only [replaceFirst, he, Bool.false_eq_true, if_false] at h
      cases hr : replaceFirst u now rest with
      | none => rw [hr] at h; simp at h
      | some lm =>
        obtain ⟨l₂, m₂⟩ := lm
        rw [hr] at h
        simp only [Option.some.injEq, Prod.mk.injEq] at h
        obtain ⟨hl, hm⟩ := h
        subst hl; subst hm
        obtain ⟨hmem, hid, hmap⟩ := ih hr
        exact ⟨List.mem_cons_of_mem _ hmem, hid, by simp [hmap]⟩

lemma replaceFirst_status {u : Update} {now : Nat} {st : String} {l l' : List Entry}
    {m : Entry} (h : replaceFirst u now l = some (l', m)) (hst : u.status = some st) :
    m.status = st := by
  induction l generalizing l' with
  | nil => simp [replaceFirst] at h
  | cons e rest ih =>
    by_cases he : (e.id == u.id) = true
    · simp only [replaceFirst, he, if_true, Option.some.injEq, Prod.mk.injEq] at h
      obtain ⟨hl, hm⟩ := h
      subst hm
      simp [mergeEntry, hst]
    · simp only [replaceFirst, he, Bool.false_eq_true, if_false] at h
      cases hr : replaceFirst u now rest with
      | none => rw [hr] at h; simp at h
      | some lm =>
        obtain ⟨l₂, m₂⟩ := lm
        rw [hr] at h
        simp only [Option.some.injEq, Prod.mk.injEq] at h
        obtain ⟨hl, hm⟩ := h
        subst hm
        exact ih hr

lemma replaceFirst_unique {u : Update} {now : Nat} {l l' : List Entry} {m : Entry}
    (hnd : (l.map Entry.id).Nodup) (h : replaceFirst u now l = some (l', m)) :
    ∀ e' ∈ l', e'.id = u.id → e' = m := by
  induction l generalizing l' with
  | nil => simp [replaceFirst] at h
  | cons e rest ih =>
    by_cases he : (e.id == u.id) = true
    · simp only [replaceFirst, he, if_true, Option.some.injEq, Prod.mk.injEq] at h
      obtain ⟨hl, hm⟩ := h
      subst hl; subst hm
      intro e' he' hid'
      rcases List.mem_cons.mp he' with rfl | hmem
      · rfl
      · exfalso
        have he2 : e.id = u.id := by simpa using he
        have hmm : e'.id ∈ rest.map Entry.id := List.mem_map_of_mem _ hmem
        rw [hid', ← he2] at hmm
        exact (List.nodup_cons.mp (by simpa using hnd)).1 hmm
    · simp only [replaceFirst, he, Bool.false_eq_true, if_false] at h
      cases hr : replaceFirst u now rest with
      | none => rw [hr] at h; simp at h
      | some lm =>
        obtain ⟨l₂, m₂⟩ := lm
        rw [hr] at h
        simp only [Option.some.injEq, Prod.mk.injEq] at h
        obtain ⟨hl, hm⟩ := h
        subst hl; subst hm
        intro e' he' hid'
        rcases List.mem_cons.mp he' with rfl | hmem
        · exact absurd (by simp [hid']) he
        · exact ih (List.nodup_cons.mp (by simpa using hnd)).2 hr e' hmem hid'

lemma find?_replaceFirst {u : Update} {l : List Entry} {e : Entry} (now : Nat)
    (h : l.find? (fun x => x.id == u.id) = some e) :
    ∃ l', replaceFirst u now l = some (l', mergeEntry e u now) := by
  induction l with
  | nil => simp at h
  | cons e0 rest ih =>
    by_cases he : (e0.id == u.id) = true
    · simp only [List.find?_cons, he, Option.some.injEq] at h
      subst h
      exact ⟨mergeEntry e0 u now :: rest, by simp [replaceFirst, he]⟩
    · have he' : (e0.id == u.id) = false := by simpa using he
      simp only [List.find?_cons, he'] at h
      obtain ⟨l', hr⟩ := ih h
      exact ⟨e0 :: l', by simp [replaceFirst, he, hr]⟩

lemma sortInsertDesc_perm (x : Entry) (l : List Entry) :
    (sortInsertDesc x l).Perm (x :: l) := by
  induction l with
  | nil => exact List.Perm.refl _
  | cons y ys ih =>
    unfold sortInsertDesc
    by_cases hc : y.startedAt < x.startedAt
    · rw [if_pos hc]
    · rw [if_neg hc]
      exact (List.Perm.cons y ih).trans (List.Perm.swap x y ys)

lemma sortFold_perm (l acc : List Entry) :
    (l.foldl (fun a x => sortInsertDesc x a) acc).Perm (acc ++ l) := by
  induction l generalizing acc with
  | nil => simp
  | cons x xs ih =>
    simp only [List.foldl_cons]
    have h1 := ih (sortInsertDesc x acc)
    have h2 := (sortInsertDesc_perm x acc).append_right xs
    have h3 : ((x :: acc) ++ xs).Perm (acc ++ x :: xs) := List.perm_middle.symm
    exact (h1.trans h2).trans h3

lemma sortDownloadsDesc_perm (l : List Entry) : (sortDownloadsDesc l).Perm l := by
  simpa [sortDownloadsDesc] using sortFold_perm l []

lemma stopJobPolling_downloads (jobId : String) (s : AppState) :
    (stopJobPolling jobId s).downloads = s.downloads := by
  unfold stopJobPolling
  split
  · rfl
  · split <;> rfl

lemma stopJobPolling_pc (jobId : String) (s : AppState) :
    (stopJobPolling jobId s).pendingCancellations = s.pendingCancellations := by
  unfold stopJobPolling
  split
  · rfl
  · split <;> rfl

lemma lookup_filter_self {β : Type} (jobId : String) (l : List (String × β)) :
    (l.filter (fun p => p.1 != jobId)).lookup jobId = none := by
  induction l with
  | nil => rfl
  | cons p t ih =>
    obtain ⟨k, v⟩ := p
    by_cases hk : (k != jobId) = true
    · rw [List.filter_cons_of_pos (by simpa using hk)]
      have hne : (jobId == k) = false := by
        simp only [bne_iff_ne, ne_eq] at hk
        simpa using Ne.symm hk
      simpa [List.lookup_cons, hne] using ih
    · rw [List.filter_cons_of_neg (by simpa using hk)]
      exact ih

lemma stopJobPolling_lookup_self {jobId : String} (s : AppState) (hid : jobId ≠ "") :
    (stopJobPolling jobId s).pollers.lookup jobId = none := by
  unfold stopJobPolling
  rw [if_neg hid]
  cases hl : s.pollers.lookup jobId with
  | none => exact hl
  | some timer => exact lookup_filter_self jobId s.pollers

lemma renderDownloads_fields (s : AppState) :
    (renderDownloads s).1.downloads = s.downloads ∧
    (renderDownloads s).1.pollers = s.pollers ∧
    (renderDownloads s).1.activeTimers = s.activeTimers ∧
    (renderDownloads s).1.nextTimer = s.nextTimer ∧
    (renderDownloads s).1.pendingCancellations = s.pendingCancellations := by
  unfold renderDownloads
  cases s.selectedJobId with
  | none => exact ⟨rfl, rfl, rfl, rfl, rfl⟩
  | some sel =>
    by_cases hmem : (s.downloads.any (fun item => item.id == sel)) = true
    · simp [hmem]
    · simp [hmem]

lemma evictLoop_downloads (l : List Entry) (s : AppState) :
    (evictLoop l s).1.downloads = s.downloads := by
  induction l generalizing s with
  | nil => rfl
  | cons e rest ih =>
    unfold evictLoop
    by_cases he : (e.id != "") = true
    · rw [if_pos he]
      cases hpc : (stopJobPolling e.id s).pendingCancellations with
      | none => simpa using stopJobPolling_downloads e.id s
      | some pcs =>
        rw [ih]
        simpa using stopJobPolling_downloads e.id s
    · rw [if_neg he, ih]
      exact stopJobPolling_downloads e.id s

lemma trimDownloads_mem {e' : Entry} {s : AppState}
    (h : e' ∈ (trimDownloads s).1.downloads) : e' ∈ s.downloads := by
  unfold trimDownloads at h
  by_cases hlen : MAX_DOWNLOAD_ENTRIES < s.downloads.length
  · rw [if_pos hlen] at h
    rcases hev : evictLoop (s.downloads.drop MAX_DOWNLOAD_ENTRIES)
        { s with downloads := s.downloads.take MAX_DOWNLOAD_ENTRIES } with ⟨s3, err⟩
    rw [hev] at h
    have hd : s3.downloads = s.downloads.take MAX_DOWNLOAD_ENTRIES := by
      have h2 := evictLoop_downloads (s.downloads.drop MAX_DOWNLOAD_ENTRIES)
        { s with downloads := s.downloads.take MAX_DOWNLOAD_ENTRIES }
      rw [hev] at h2
      exact h2
    have hmem : e' ∈ s.downloads.take MAX_DOWNLOAD_ENTRIES := by
      cases err with
      | some e2 => rw [← hd]; exact h
      | none =>
        rw [← hd, ← (renderDownloads_fields s3).1]
        exact h
    exact List.take_subset _ _ hmem
  · rw [if_neg hlen] at h
    rw [(renderDownloads_fields s).1] at h
    exact h

lemma upsertFinish_mem {e' : Entry} {s : AppState}
    (h : e' ∈ (upsertFinish s).1.downloads) : e' ∈ s.downloads := by
  unfold upsertFinish at h
  have h2 := trimDownloads_mem h
  exact (sortDownloadsDesc_perm s.downloads).mem_iff.mp h2

lemma upsertCore_snd_id (u : Update) (now : Nat) (l : List Entry) :
    (upsertCore u now l).2.id = u.id := by
  unfold upsertCore
  cases hr : replaceFirst u now l with
  | none => rfl
  | some lm =>
    obtain ⟨l', m⟩ := lm
    exact (replaceFirst_eq_some hr).2.1

lemma upsertCore_snd_status {u : Update} {st : String} (now : Nat) (l : List Entry)
    (hst : u.status = some st) : (upsertCore u now l).2.status = st := by
  unfold upsertCore
  cases hr : replaceFirst u now l with
  | none => simp [insertedEntry, hst]
  | some lm =>
    obtain ⟨l', m⟩ := lm
    exact replaceFirst_status hr hst

lemma upsertCore_snd_mem (u : Update) (now : Nat) (l : List Entry) :
    (upsertCore u now l).2 ∈ (upsertCore u now l).1 := by
  unfold upsertCore
  cases hr : replaceFirst u now l with
  | none => simp
  | some lm =>
    obtain ⟨l', m⟩ := lm
    exact (replaceFirst_eq_some hr).1

end YtToRadarr
namespace YtToRadarr

lemma upsertDownload_mem {u : Update} {now : Nat} {s : AppState} {e' : Entry}
    (hid : u.id ≠ "") (h : e' ∈ (upsertDownload u now s).1.downloads) :
    e' ∈ (upsertCore u now s.downloads).1 := by
  simp only [upsertDownload, hid, ite_false, if_false] at h
  split at h
  · split at h
    · simpa using h
    · exact upsertFinish_mem h
  · exact upsertFinish_mem h

lemma upsertDownload_throws (u : Update) (now : Nat) (s : AppState)
    (hpc : s.pendingCancellations = none) (hid : u.id ≠ "")
    (hnc : CANCELLABLE_STATUSES.contains (upsertCore u now s.downloads).2.status = false) :
    upsertDownload u now s =
      ({ s with downloads := (upsertCore u now s.downloads).1 },
        some pendingCancellationsError) := by
  unfold upsertDownload
  rw [if_neg hid]
  have hcond : ((upsertCore u now s.downloads).2.id != "" &&
      !(CANCELLABLE_STATUSES.contains (upsertCore u now s.downloads).2.status)) = true := by
    rw [upsertCore_snd_id, hnc]
    simp [hid]
  simp only [hcond, if_true, hpc]

/-! ### C1 — `startedAt` across merges -/

/-- C1 counterexample: two upserts sharing id `j1`; the first insert
establishes `startedAt = 100`, yet after the second call — which carries
its own `startedAt` — the stored record holds `200`, because the merge
computes `update.startedAt || existing.startedAt`, preferring the update's
value. The claim that no later merge ever overwrites `startedAt` is
therefore false on the code. -/
theorem c1_counterexample :
    (upsertDownload c1First 100 initialState).1.downloads.map Entry.startedAt = [100] ∧
    ((upsertDownload c1Second 200
        (upsertDownload c1First 100 initialState).1).1.downloads.map Entry.startedAt
      = [200]) ∧
    (200 : Nat) ≠ 100 :=
  ⟨rfl, rfl, by decide⟩

/-- C1 (amended): a merge into a stored record yields
`startedAt = update.startedAt || existing.startedAt` — the stored start
time is preserved exactly when the later update carries no `startedAt`,
and is overwritten by the update's value when it does — while `updatedAt`
advances to the update's value or the merge time `now`. -/
theorem c1_startedAt_merge (s : AppState) (u : Update) (now : Nat) (e : Entry)
    (hnd : (s.downloads.map Entry.id).Nodup) (hid : u.id ≠ "")
    (hfind : s.downloads.find? (fun x => x.id == u.id) = some e) :
    ∀ e' ∈ (upsertDownload u now s).1.downloads, e'.id = u.id →
      e'.startedAt = u.startedAt.getD e.startedAt ∧
      e'.updatedAt = u.updatedAt.getD now := by
  intro e' hmem hid'
  obtain ⟨l', hrf⟩ := find?_replaceFirst now hfind
  have h1 : e' ∈ (upsertCore u now s.downloads).1 := upsertDownload_mem hid hmem
  simp only [upsertCore, hrf] at h1
  have he' := replaceFirst_unique hnd hrf e' h1 hid'
  rw [he']
  exact ⟨rfl, rfl⟩

/-- C1 witness: the merge formula applied to a stored record with start
time 100 and an update carrying start time 200 at merge time 250. -/
theorem c1_startedAt_merge_witness :
    c1Merged.startedAt = c1Merge.startedAt.getD c1Stored.startedAt ∧
    c1Merged.updatedAt = c1Merge.updatedAt.getD 250 :=
  c1_startedAt_merge c1State c1Merge 250 c1Stored (by decide) (by decide) (by decide)
    c1Merged (by decide) (by decide)

/-! ### C2 — capacity invariant -/

/-- C2 failing input, evaluated: after eight queued upserts the store
holds 8 records, but upserting a ninth, new snapshot whose status is
`complete` reaches the pending-cancellation cleanup before the sort and
capacity steps; that cleanup dereferences the undefined
`state.pendingCancellations`, the call throws, and the store is left with
9 records — no eviction, no poller teardown. -/
theorem c2_capacity_violated :
    c2Store.downloads.length = 8 ∧
    (upsertDownload c2Ninth 900 c2Store).2 = some pendingCancellationsError ∧
    (upsertDownload c2Ninth 900 c2Store).1.downloads.length = 9 :=
  ⟨rfl, rfl, rfl⟩

/-! ### C4 — cancel action -/

/-- C4 failing input, evaluated: invoking the cancel action on the queued
job `job-1` throws the `TypeError` at its very first test
(`state.pendingCancellations.has`), for every possible response of the
cancel request — so no pending flag is set, no cancel request is issued,
and nothing is merged or re-polled. -/
theorem c4_cancel_throws (outcome : CancelFetch) (now : Nat) :
    cancelJob "job-1" outcome now c4Store = (c4Store, some pendingCancellationsError) := rfl

/-! ### C5 — uninitialised pending-cancellation set -/

/-- C5 failing input, evaluated: the `state` literal declares no
`pendingCancellations` member, so rendering a job card for the queued
entry `job-1` (a cancellable status) throws the `TypeError`, as does the
full list render. -/
theorem c5_uninitialised_pending_set :
    initialState.pendingCancellations = none ∧
    CANCELLABLE_STATUSES.contains c5Entry.status = true ∧
    buildDownloadItemCancel initialState c5Entry = Except.error pendingCancellationsError ∧
    (renderDownloads { initialState with downloads := [c5Entry] }).2 =
      some pendingCancellationsError :=
  ⟨rfl, rfl, rfl, rfl⟩

end YtToRadarr
namespace YtToRadarr

/-! ### C6 — poller idempotence -/

/-- C6: in the final script a second `startJobPolling` for an id already in
the poller map is a complete no-op (no duplicate interval); in the earlier
`static/script.js`, `beginJobPolling` on an already-polling id changes
nothing but that poller's show-console flag (upgraded by or-ing the new
request), and a single `stopJobPolling` clears the registered interval and
removes the bookkeeping entry, so the recurring fetches for that id end. -/
theorem c6_poller_idempotent :
    (∀ (s : AppState) (jobId : String), (s.pollers.lookup jobId).isSome = true →
      startJobPolling jobId s = s) ∧
    (∀ (s : LegacyClient.PollState) (jobId : String) (b : Bool), jobId ≠ "" →
      (s.jobPollers.lookup jobId).isSome = true →
      LegacyClient.beginJobPolling jobId b s =
        { s with jobPollers := s.jobPollers.map (fun p =>
            if p.1 == jobId then (p.1, { p.2 with showConsole := p.2.showConsole || b })
            else p) }) ∧
    (∀ (s : LegacyClient.PollState) (jobId : String) (info : LegacyClient.PollerInfo)
        (t : Nat), s.jobPollers.lookup jobId = some info → info.timer = some t →
      s.activeTimers.Nodup →
      (LegacyClient.stopJobPolling jobId s).jobPollers.lookup jobId = none ∧
      t ∉ (LegacyClient.stopJobPolling jobId s).activeTimers) := by
  refine ⟨?_, ?_, ?_⟩
  · intro s jobId hsome
    unfold startJobPolling
    rw [if_pos]
    simp [hsome]
  · intro s jobId b hne hsome
    unfold LegacyClient.beginJobPolling
    rw [if_neg hne]
    cases hl : s.jobPollers.lookup jobId with
    | none => rw [hl] at hsome; simp at hsome
    | some info =>
      cases b with
      | true =>
        simp only [if_true]
        congr 1
        apply List.map_congr_left
        intro p hp
        by_cases hp1 : (p.1 == jobId) = true
        · simp [hp1, Bool.or_true]
        · simp [hp1]
      | false =>
        simp only [if_false]
        have hmap : s.jobPollers.map (fun p =>
            if p.1 == jobId then (p.1, { p.2 with showConsole := p.2.showConsole || false })
            else p) = s.jobPollers := by
          have h2 : s.jobPollers.map (fun p => p) = s.jobPollers := List.map_id _
          refine Eq.trans (List.map_congr_left ?_) h2
          intro p hp
          by_cases hp1 : (p.1 == jobId) = true
          · simp [hp1, Bool.or_false]
          · simp [hp1]
        rw [hmap]
        simp only [Bool.false_eq_true, if_false]
  · intro s jobId info t hl ht hnd
    constructor
    · unfold LegacyClient.stopJobPolling
      simp only [hl, ht]
      exact lookup_filter_self jobId s.jobPollers
    · unfold LegacyClient.stopJobPolling
      simp only [hl, ht]
      simp [List.Nodup.mem_erase_iff hnd]

/-- C6 witness: starting the same poller twice leaves one interval and an
upgraded flag; part one applied at a concrete already-polling state. -/
theorem c6_poller_idempotent_witness :
    LegacyClient.beginJobPolling "j1" true (LegacyClient.beginJobPolling "j1" false {}) =
      { jobPollers := [("j1", { showConsole := true, timer := some 1 })],
        activeTimers := [1], nextTimer := 1 } := by
  have h := c6_poller_idempotent.2.1 (LegacyClient.beginJobPolling "j1" false {}) "j1" true
    (by decide) (by decide)
  rw [h]
  rfl

/-! ### C7 — terminal statuses stop the poller after the merge -/

/-- C7: a poll tick whose snapshot carries a raw terminal status —
`complete`, `failed`, `cancelled`, or the backend alias `completed`, which
normalises to `complete` in the store — first merges the normalised
snapshot into the download store and then tears the poller down, so when
the tick finishes the id is gone from the poller map and the store holds
the snapshot under its normalised status. Stated over the program's
reachable states, all of which carry an uninitialised
`state.pendingCancellations` (it is never assigned anywhere): on such
states the merge's cleanup line throws, and the tick's `catch` block stops
the poller after the merge — the raw-status check below it is never the
deciding step. -/
theorem c7_terminal_tick (s : AppState) (j : RawJob) (jobId : String)
    (nf sc : Bool) (now : Nat)
    (hpc : s.pendingCancellations = none)
    (hid : jobId ≠ "") (hjid : j.id = jobId)
    (hst : j.status = "complete" ∨ j.status = "failed" ∨ j.status = "cancelled" ∨
      j.status = "completed") :
    (pollJob jobId nf sc (.job j) now s).1.pollers.lookup jobId = none ∧
    ∃ e' ∈ (pollJob jobId nf sc (.job j) now s).1.downloads,
      e'.id = jobId ∧ e'.status = normaliseStatus j.status := by
  have hidj : j.id ≠ "" := by rw [hjid]; exact hid
  have hnc : CANCELLABLE_STATUSES.contains (normaliseStatus j.status) = false := by
    rcases hst with h | h | h | h <;> rw [h] <;> decide
  cases hN : normaliseJob j now with
  | none => simp [normaliseJob, hidj] at hN
  | some u =>
    have hu : u.status = some (normaliseStatus j.status) ∧ u.id = j.id := by
      simp only [normaliseJob, hidj, if_neg, ite_false, Option.some.injEq] at hN
      rw [← hN]
      exact ⟨rfl, rfl⟩
    have huid : u.id ≠ "" := by rw [hu.2]; exact hidj
    have hthrow := upsertDownload_throws u now s hpc huid
      (by rw [upsertCore_snd_status now s.downloads hu.1]; exact hnc)
    have hpoll : pollJob jobId nf sc (.job j) now s =
        pollJobCatch jobId { s with downloads := (upsertCore u now s.downloads).1 } := by
      unfold pollJob
      rw [if_neg hid]
      simp only [pollJobTry, hN, hthrow]
    rw [hpoll]
    simp only [pollJobCatch, deletePendingCancellation, stopJobPolling_pc, hpc]
    constructor
    · exact stopJobPolling_lookup_self _ hid
    · rw [stopJobPolling_downloads]
      refine ⟨(upsertCore u now s.downloads).2, ?_, ?_, ?_⟩
      · exact upsertCore_snd_mem u now s.downloads
      · rw [upsertCore_snd_id, hu.2, hjid]
      · exact upsertCore_snd_status now s.downloads hu.1

/-- C7 witness: a tick for the polled job `j1` returning the alias status
`completed` removes `j1` from the poller map. -/
theorem c7_terminal_tick_witness :
    (pollJob "j1" false false (.job c7Job) 200 c7State).1.pollers.lookup "j1" = none :=
  (c7_terminal_tick c7State c7Job "j1" false false 200 rfl (by decide) rfl
    (by right; right; right; rfl)).1

end YtToRadarr
